import Mathlib

/-!
Error values of the `validate` package (`errors.go`).

A shallow embedding of `errors.go`: the two error structs `ErrorValidation` and
`ErrorSyntax`, their `FieldName`, `setFieldName` and `Error` methods, and the
package-level function `setFieldName`.

Modelling conventions.

* Go strings are Lean `String`s; `len(s)` is the UTF-8 byte size.
* `fmt.Sprintf` is interpreted over its format string (`Sprintf` below); every
  call in `errors.go` uses only the verb `%v`, with as many operands as verbs.
  An operand is passed already rendered by `%v`: a Go string renders as itself.
* `reflect.Value` belongs to the Go standard library.  A value is represented
  by what `Error` can observe of it: its type (kind and printed name) and its
  `%v` text.  `reflect.Value.Type` panics on the zero `Value`, so it returns an
  `Except`, and so does every function that calls it.
* A method with a pointer receiver maps the pointee before the call to the
  pointee after it; the variable whose address is taken lives in a `Store`.
-/

namespace Validate

/-! ## Standard library: `reflect` and `fmt` -/

/-- The kinds of `reflect.Kind`, in the order of the Go declaration. -/
inductive Kind
  | Invalid
  | Bool
  | Int
  | Int8
  | Int16
  | Int32
  | Int64
  | Uint
  | Uint8
  | Uint16
  | Uint32
  | Uint64
  | Uintptr
  | Float32
  | Float64
  | Complex64
  | Complex128
  | Array
  | Chan
  | Func
  | Interface
  | Map
  | Pointer
  | Slice
  | String
  | Struct
  | UnsafePointer
  deriving DecidableEq, Repr

/-- A `reflect.Type` as far as `Error` observes it: its kind, which is never
`Invalid` for a type, and the name `%v` prints for it. -/
structure RType where
  kind : Kind
  name : String
  valid : kind ≠ Kind.Invalid

/-- A `reflect.Value`: either the zero `Value`, which holds nothing, or a value
of some type together with the text `%v` prints for it. -/
inductive Value
  | zero
  | of (typ : RType) (text : String)

/-- `reflect.Value.Kind`: the kind of the held value, `Invalid` for the zero
`Value`.  It never panics. -/
def Value.Kind : Value → Kind
  | .zero => Kind.Invalid
  | .of typ _ => typ.kind

/-- `reflect.Value.Type`: the type of the held value.  On the zero `Value` it
panics. -/
def Value.Type : Value → Except String RType
  | .zero => .error "reflect: call of reflect.Value.Type on zero Value"
  | .of typ _ => .ok typ

/-- The text `fmt` prints for a `reflect.Value` operand under `%v`: the text of
the value it holds, and a fixed marker for the zero `Value`. -/
def Value.format : Value → String
  | .zero => "<invalid reflect.Value>"
  | .of _ text => text

/-- The text `fmt` prints for a `reflect.Type` operand under `%v`. -/
def RType.format (t : RType) : String := t.name

/-- The scan of `fmt.Sprintf` over the characters of the format: a `%v`
consumes the next operand, a `%v` with no operand left prints the marker of
a missing operand, every other character is copied. -/
def sprintfAux : List Char → List String → List Char
  | [], _ => []
  | '%' :: 'v' :: rest, a :: args => a.data ++ sprintfAux rest args
  | '%' :: 'v' :: rest, [] => "%!v(MISSING)".data ++ sprintfAux rest []
  | c :: rest, args => c :: sprintfAux rest args

/-- The function `fmt.Sprintf`, for formats whose only verb is `%v`. -/
def Sprintf (format : String) (args : List String) : String :=
  String.mk (sprintfAux format.data args)

/-- The builtin `len` on a Go string: its number of bytes. -/
def len (s : String) : Nat := s.utf8ByteSize

/-! ## Validator kinds -/

/-- Modelled from the spec: the declaration of `ValidatorType` and of its
constants is not in `errors.go`.  The spec gives a closed set of ten kinds plus
an open tag for any other kind; `other name` is a kind outside the ten, known
by its text. -/
inductive ValidatorType
  | ValidatorEq
  | ValidatorNe
  | ValidatorGte
  | ValidatorGt
  | ValidatorLt
  | ValidatorLte
  | ValidatorEmpty
  | ValidatorNil
  | ValidatorFormat
  | ValidatorOneOf
  | other (name : String)
  deriving DecidableEq, Repr

/-- Modelled from the spec: the text `%v` prints for a `ValidatorType`, which
the spec calls the lowercase textual form of the kind (`empty`, `nil`).  `Error`
prints the kind only in the `Empty`/`Nil` branch and in the fallback branch. -/
def ValidatorType.format : ValidatorType → String
  | .ValidatorEq => "eq"
  | .ValidatorNe => "ne"
  | .ValidatorGte => "gte"
  | .ValidatorGt => "gt"
  | .ValidatorLt => "lt"
  | .ValidatorLte => "lte"
  | .ValidatorEmpty => "empty"
  | .ValidatorNil => "nil"
  | .ValidatorFormat => "format"
  | .ValidatorOneOf => "one_of"
  | .other name => name

/-- Indexing a Go `map[ValidatorType]string`, here a list of entries: the value
of the first entry with the key, and the empty string when there is none. -/
def mapIndex : List (ValidatorType × String) → ValidatorType → String
  | [], _ => ""
  | (k, v) :: rest, key => if k = key then v else mapIndex rest key

/-! ## `ErrorValidation` -/

/-- The struct `ErrorValidation`: a validator did not validate. -/
structure ErrorValidation where
  fieldName : String
  fieldValue : Value
  validatorType : ValidatorType
  validatorValue : String

/-- The method `ErrorValidation.FieldName`. -/
def ErrorValidation.FieldName (e : ErrorValidation) : String :=
  e.fieldName

/-- The method `(*ErrorValidation).setFieldName`: the pointee after the
assignment `e.fieldName = fieldName`. -/
def ErrorValidation.setFieldName (e : ErrorValidation) (fieldName : String) : ErrorValidation :=
  { e with fieldName := fieldName }

/-- The map literal `errMsgMap` of `ErrorValidation.Error`. -/
def errMsgMap : List (ValidatorType × String) :=
  [ (.ValidatorEq, "equal"),
    (.ValidatorNe, "not equal"),
    (.ValidatorGte, "greater than or equal"),
    (.ValidatorGt, "greater than"),
    (.ValidatorLt, "less than"),
    (.ValidatorLte, "less than or equal") ]

/-- The method `ErrorValidation.Error`.  The result is `.error` exactly when
the Go method panics. -/
def ErrorValidation.Error (e : ErrorValidation) : Except String String :=
  let validator := e.validatorType
  match validator with
  | .ValidatorEq | .ValidatorGt | .ValidatorGte | .ValidatorLt | .ValidatorLte | .ValidatorNe =>
    match e.fieldValue.Kind with
    | .String | .Map | .Slice | .Array =>
      .ok (Sprintf "%v length must be %v to %v"
        [e.fieldName, mapIndex errMsgMap validator, e.validatorValue])
    | _ =>
      .ok (Sprintf "%v must be %v to %v"
        [e.fieldName, mapIndex errMsgMap validator, e.validatorValue])
  | .ValidatorEmpty | .ValidatorNil =>
    if e.validatorValue = "false" then
      .ok (Sprintf "%v is required" [e.fieldName])
    else
      .ok (Sprintf "%v must be %v" [e.fieldName, e.validatorType.format])
  | .ValidatorFormat =>
    .ok (Sprintf "%v must be in %v format" [e.fieldName, e.validatorValue])
  | .ValidatorOneOf =>
    .ok (Sprintf "%v %v is not an allowed value. Must be one of %v"
      [e.fieldName, e.fieldValue.format, e.validatorValue])
  | _ =>
    if len e.fieldName > 0 then
      match e.fieldValue.Type with
      | .error p => .error p
      | .ok t =>
        .ok (Sprintf "Validation error in field \"%v\" of type \"%v\" using validator \"%v\""
          [e.fieldName, t.format, validator.format])
    else
      match e.fieldValue.Type with
      | .error p => .error p
      | .ok t =>
        .ok (Sprintf "Validation error in value of type \"%v\" using validator \"%v\""
          [t.format, validator.format])

/-! ## `ErrorSyntax` -/

/-- The struct `ErrorSyntax`: a rule expression has a syntax error. -/
structure ErrorSyntax where
  fieldName : String
  expression : String
  near : String
  comment : String

/-- The method `ErrorSyntax.FieldName`. -/
def ErrorSyntax.FieldName (e : ErrorSyntax) : String :=
  e.fieldName

/-- The method `(*ErrorSyntax).setFieldName`: the pointee after the assignment
`e.fieldName = fieldName`. -/
def ErrorSyntax.setFieldName (e : ErrorSyntax) (fieldName : String) : ErrorSyntax :=
  { e with fieldName := fieldName }

/-- The method `ErrorSyntax.Error`. -/
def ErrorSyntax.Error (e : ErrorSyntax) : String :=
  if len e.fieldName > 0 then
    Sprintf "Syntax error when validating field \"%v\", expression \"%v\" near \"%v\": %v"
      [e.fieldName, e.expression, e.near, e.comment]
  else
    Sprintf "Syntax error when validating value, expression \"%v\" near \"%v\": %v"
      [e.expression, e.near, e.comment]

/-! ## The interfaces and the function `setFieldName` -/

/-- An implementation of `ErrorField` other than the two structs of this file,
known by the name of its dynamic type and by what its two methods return. -/
structure OtherError where
  typeName : String
  fieldName : String
  message : String

/-- A value of the interface `ErrorField`, by dynamic type: an
`ErrorValidation`, an `ErrorSyntax`, or any other implementation. -/
inductive ErrorField
  | validation (e : ErrorValidation)
  | syntaxErr (e : ErrorSyntax)
  | other (o : OtherError)

/-- The method `FieldName` of the interface `ErrorField`. -/
def ErrorField.FieldName : ErrorField → String
  | .validation e => e.FieldName
  | .syntaxErr e => e.FieldName
  | .other o => o.fieldName

/-- The method `Error` of the interface `ErrorField`. -/
def ErrorField.Error : ErrorField → Except String String
  | .validation e => e.Error
  | .syntaxErr e => .ok e.Error
  | .other o => .ok o.message

/-- The type assertion `err.(ErrorValidation)`: it panics when the dynamic type
is another one. -/
def ErrorField.assertErrorValidation : ErrorField → Except String ErrorValidation
  | .validation e => .ok e
  | _ => .error "interface conversion: validate.ErrorField is not validate.ErrorValidation"

/-- The type assertion `err.(ErrorSyntax)`: it panics when the dynamic type is
another one. -/
def ErrorField.assertErrorSyntax : ErrorField → Except String ErrorSyntax
  | .syntaxErr e => .ok e
  | _ => .error "interface conversion: validate.ErrorField is not validate.ErrorSyntax"

/-- An addressable variable holding one of the two error structs. -/
inductive Cell
  | validation (e : ErrorValidation)
  | syntaxErr (e : ErrorSyntax)

/-- The addressable variables, each at the address that is its index. -/
abbrev Store := List Cell

/-- What an `interface{}` can hold of the two error structs: a struct value,
or a pointer to an addressable variable. -/
inductive Dyn
  | valErrorValidation (e : ErrorValidation)
  | valErrorSyntax (e : ErrorSyntax)
  | ptrErrorValidation (addr : Nat)
  | ptrErrorSyntax (addr : Nat)

/-- A value of the setter interface `errorField`.  The method `setFieldName`
has a pointer receiver on both structs, so only the two pointer types
implement the interface. -/
inductive errorField
  | ptrErrorValidation (addr : Nat)
  | ptrErrorSyntax (addr : Nat)

/-- The type assertion `(i).(errorField)`: it panics when the dynamic type has
no method `setFieldName`. -/
def Dyn.assertErrorField : Dyn → Except String errorField
  | .ptrErrorValidation addr => .ok (.ptrErrorValidation addr)
  | .ptrErrorSyntax addr => .ok (.ptrErrorSyntax addr)
  | .valErrorValidation _ =>
    .error "interface conversion: validate.ErrorValidation is not validate.errorField: missing method setFieldName"
  | .valErrorSyntax _ =>
    .error "interface conversion: validate.ErrorSyntax is not validate.errorField: missing method setFieldName"

/-- The method `setFieldName` of the interface `errorField`: the call goes to
the method of the pointer type and writes the variable pointed to. -/
def errorField.setFieldName (i : errorField) (fieldName : String) (st : Store) :
    Except String Store :=
  match i with
  | .ptrErrorValidation addr =>
    match st[addr]? with
    | some (.validation e) => .ok (st.set addr (.validation (e.setFieldName fieldName)))
    | _ => .error "invalid memory address or nil pointer dereference"
  | .ptrErrorSyntax addr =>
    match st[addr]? with
    | some (.syntaxErr e) => .ok (st.set addr (.syntaxErr (e.setFieldName fieldName)))
    | _ => .error "invalid memory address or nil pointer dereference"

/-- The function `setFieldName`, run on the store `st` of the variables that
exist at the call.  In the two known cases the local variable `e` gets a fresh
address, is written through the pointer `i`, and is read back for the result.
The result is `.error` exactly when the Go function panics. -/
def setFieldName (err : ErrorField) (fieldName : String) (st : Store) :
    Except String (ErrorField × Store) :=
  match err with
  | .validation _ =>
    match err.assertErrorValidation with
    | .error p => .error p
    | .ok e =>
      let addr := st.length
      let st1 := st ++ [Cell.validation e]
      let i := Dyn.ptrErrorValidation addr
      match i.assertErrorField with
      | .error p => .error p
      | .ok s =>
        match s.setFieldName fieldName st1 with
        | .error p => .error p
        | .ok st2 =>
          match st2[addr]? with
          | some (.validation e2) => .ok (.validation e2, st2)
          | _ => .error "invalid memory address or nil pointer dereference"
  | .syntaxErr _ =>
    match err.assertErrorSyntax with
    | .error p => .error p
    | .ok e =>
      let addr := st.length
      let st1 := st ++ [Cell.syntaxErr e]
      let i := Dyn.ptrErrorSyntax addr
      match i.assertErrorField with
      | .error p => .error p
      | .ok s =>
        match s.setFieldName fieldName st1 with
        | .error p => .error p
        | .ok st2 =>
          match st2[addr]? with
          | some (.syntaxErr e2) => .ok (.syntaxErr e2, st2)
          | _ => .error "invalid memory address or nil pointer dereference"
  | .other _ => .ok (err, st)

/-! ## Evaluation lemmas -/

theorem len_pos_iff (s : String) : len s > 0 ↔ s ≠ "" := by
  obtain ⟨l⟩ := s
  cases l with
  | nil => simp [len, String.utf8ByteSize, String.utf8ByteSize.go]
  | cons c cs =>
    have hc : 0 < c.utf8Size := Char.utf8Size_pos c
    have hne : (String.mk (c :: cs)) ≠ "" := by
      intro h
      have := congrArg String.data h
      simp at this
    simp only [len, String.utf8ByteSize, String.utf8ByteSize.go, gt_iff_lt, ne_eq, hne,
      not_false_eq_true, iff_true]
    omega

/-- The outcome of `setFieldName` on an `ErrorValidation`. -/
theorem setFieldName_validation (e : ErrorValidation) (f : String) (st : Store) :
    setFieldName (.validation e) f st
      = .ok (.validation { e with fieldName := f },
             st ++ [Cell.validation { e with fieldName := f }]) := by
  simp [setFieldName, ErrorField.assertErrorValidation, Dyn.assertErrorField,
    errorField.setFieldName, ErrorValidation.setFieldName]

/-- The outcome of `setFieldName` on an `ErrorSyntax`. -/
theorem setFieldName_syntaxErr (e : ErrorSyntax) (f : String) (st : Store) :
    setFieldName (.syntaxErr e) f st
      = .ok (.syntaxErr { e with fieldName := f },
             st ++ [Cell.syntaxErr { e with fieldName := f }]) := by
  simp [setFieldName, ErrorField.assertErrorSyntax, Dyn.assertErrorField,
    errorField.setFieldName, ErrorSyntax.setFieldName]

/-- The format strings of `errors.go`, evaluated on arbitrary operands. -/
theorem sprintf_length_must (a b c : String) :
    Sprintf "%v length must be %v to %v" [a, b, c]
      = a ++ " length must be " ++ b ++ " to " ++ c := by
  apply String.ext
  simp [Sprintf, sprintfAux, String.data_append]

theorem sprintf_must (a b c : String) :
    Sprintf "%v must be %v to %v" [a, b, c] = a ++ " must be " ++ b ++ " to " ++ c := by
  apply String.ext
  simp [Sprintf, sprintfAux, String.data_append]

theorem sprintf_required (a : String) :
    Sprintf "%v is required" [a] = a ++ " is required" := by
  apply String.ext
  simp [Sprintf, sprintfAux, String.data_append]

theorem sprintf_must_kind (a b : String) :
    Sprintf "%v must be %v" [a, b] = a ++ " must be " ++ b := by
  apply String.ext
  simp [Sprintf, sprintfAux, String.data_append]

theorem sprintf_format (a b : String) :
    Sprintf "%v must be in %v format" [a, b] = a ++ " must be in " ++ b ++ " format" := by
  apply String.ext
  simp [Sprintf, sprintfAux, String.data_append]

theorem sprintf_one_of (a b c : String) :
    Sprintf "%v %v is not an allowed value. Must be one of %v" [a, b, c]
      = a ++ " " ++ b ++ " is not an allowed value. Must be one of " ++ c := by
  apply String.ext
  simp [Sprintf, sprintfAux, String.data_append]

theorem sprintf_syntax_field (a b c d : String) :
    Sprintf "Syntax error when validating field \"%v\", expression \"%v\" near \"%v\": %v"
        [a, b, c, d]
      = "Syntax error when validating field \"" ++ a ++ "\", expression \"" ++ b
          ++ "\" near \"" ++ c ++ "\": " ++ d := by
  apply String.ext
  simp [Sprintf, sprintfAux, String.data_append]

theorem sprintf_syntax_value (b c d : String) :
    Sprintf "Syntax error when validating value, expression \"%v\" near \"%v\": %v" [b, c, d]
      = "Syntax error when validating value, expression \"" ++ b
          ++ "\" near \"" ++ c ++ "\": " ++ d := by
  apply String.ext
  simp [Sprintf, sprintfAux, String.data_append]

/-- The comparison branch of `Error`, with the phrase still looked up. -/
theorem error_comparison_branch (k : ValidatorType) (f c : String) (v : Value)
    (hk : k = .ValidatorEq ∨ k = .ValidatorNe ∨ k = .ValidatorGte ∨ k = .ValidatorGt
      ∨ k = .ValidatorLt ∨ k = .ValidatorLte) :
    ErrorValidation.Error ⟨f, v, k, c⟩
      = .ok (if v.Kind = .String ∨ v.Kind = .Map ∨ v.Kind = .Slice ∨ v.Kind = .Array
          then f ++ " length must be " ++ mapIndex errMsgMap k ++ " to " ++ c
          else f ++ " must be " ++ mapIndex errMsgMap k ++ " to " ++ c) := by
  rcases hk with rfl | rfl | rfl | rfl | rfl | rfl <;>
    cases hK : v.Kind <;>
    simp [ErrorValidation.Error, hK, sprintf_length_must, sprintf_must]

/-! ## The wording of `ErrorValidation.Error` -/

/-- C1: for a validator kind among Eq, Ne, Gte, Gt, Lt, Lte, paired with its
phrase (equal, not equal, greater than or equal, greater than, less than, less
than or equal), any field name `f`, constraint `c` and observed value `v`:
`Error` returns `f ++ " length must be " ++ phrase ++ " to " ++ c` when the kind
of `v` is String, Map, Slice or Array, and
`f ++ " must be " ++ phrase ++ " to " ++ c` for every other observed value. -/
theorem error_comparison_wording (k : ValidatorType) (phrase f c : String) (v : Value)
    (hk : (k, phrase) ∈ [(ValidatorType.ValidatorEq, "equal"), (.ValidatorNe, "not equal"),
      (.ValidatorGte, "greater than or equal"), (.ValidatorGt, "greater than"),
      (.ValidatorLt, "less than"), (.ValidatorLte, "less than or equal")]) :
    ((v.Kind = .String ∨ v.Kind = .Map ∨ v.Kind = .Slice ∨ v.Kind = .Array) →
      ErrorValidation.Error ⟨f, v, k, c⟩
        = .ok (f ++ " length must be " ++ phrase ++ " to " ++ c)) ∧
    (¬ (v.Kind = .String ∨ v.Kind = .Map ∨ v.Kind = .Slice ∨ v.Kind = .Array) →
      ErrorValidation.Error ⟨f, v, k, c⟩ = .ok (f ++ " must be " ++ phrase ++ " to " ++ c)) := by
  simp only [List.mem_cons, Prod.mk.injEq, List.mem_singleton, List.not_mem_nil, or_false] at hk
  rcases hk with ⟨rfl, rfl⟩ | ⟨rfl, rfl⟩ | ⟨rfl, rfl⟩ | ⟨rfl, rfl⟩ | ⟨rfl, rfl⟩ | ⟨rfl, rfl⟩ <;>
    (constructor <;> intro h <;> rw [error_comparison_branch _ _ _ _ (by simp)] <;>
      simp [h, mapIndex, errMsgMap])

/-- C1, at the two inputs the claim names: kind Gte on the int 5 with constraint
18 and field Age, and kind Gte on the string x with constraint 3 and field
Name. -/
theorem error_comparison_wording_witness :
    ErrorValidation.Error ⟨"Age", .of ⟨.Int, "int", by decide⟩ "5", .ValidatorGte, "18"⟩
        = .ok "Age must be greater than or equal to 18" ∧
    ErrorValidation.Error ⟨"Name", .of ⟨.String, "string", by decide⟩ "x", .ValidatorGte, "3"⟩
        = .ok "Name length must be greater than or equal to 3" :=
  ⟨(error_comparison_wording .ValidatorGte "greater than or equal" "Age" "18"
      (.of ⟨.Int, "int", by decide⟩ "5") (by simp)).2 (by decide),
   (error_comparison_wording .ValidatorGte "greater than or equal" "Name" "3"
      (.of ⟨.String, "string", by decide⟩ "x") (by simp)).1 (by decide)⟩

/-- C2 as stated fails: for kind Gte, field Age and constraint 18, `Error` on
the int 5 does not return `Age must be greater than or equal 18`, and on the
string x it does not return `Age length must be greater than or equal 18`; the
word `to` stands between the phrase and the constraint. -/
theorem error_comparison_single_space_counterexample :
    ErrorValidation.Error ⟨"Age", .of ⟨.Int, "int", by decide⟩ "5", .ValidatorGte, "18"⟩
        ≠ .ok ("Age" ++ " must be " ++ "greater than or equal" ++ " " ++ "18") ∧
    ErrorValidation.Error ⟨"Age", .of ⟨.String, "string", by decide⟩ "x", .ValidatorGte, "18"⟩
        ≠ .ok ("Age" ++ " length must be " ++ "greater than or equal" ++ " " ++ "18") := by
  constructor
  · rw [error_comparison_branch _ _ _ _ (by simp)]
    simp [Value.Kind, mapIndex, errMsgMap]
  · rw [error_comparison_branch _ _ _ _ (by simp)]
    simp [Value.Kind, mapIndex, errMsgMap]

/-- C2, amended: for a validator kind among Eq, Ne, Gte, Gt, Lt, Lte, paired
with its phrase in the fixed mapping, `Error` renders exactly the field name,
then ` length must be ` for a String, Map, Slice or Array and ` must be `
otherwise, then the phrase, then ` to `, then the constraint; and it never
renders the phrase followed by a single space and the constraint. -/
theorem error_comparison_exact (k : ValidatorType) (phrase f c : String) (v : Value)
    (hk : (k, phrase) ∈ [(ValidatorType.ValidatorEq, "equal"), (.ValidatorNe, "not equal"),
      (.ValidatorGte, "greater than or equal"), (.ValidatorGt, "greater than"),
      (.ValidatorLt, "less than"), (.ValidatorLte, "less than or equal")]) :
    ErrorValidation.Error ⟨f, v, k, c⟩
      = .ok (f ++ (if v.Kind = .String ∨ v.Kind = .Map ∨ v.Kind = .Slice ∨ v.Kind = .Array
          then " length must be " else " must be ") ++ phrase ++ " to " ++ c) ∧
    ErrorValidation.Error ⟨f, v, k, c⟩
      ≠ .ok (f ++ (if v.Kind = .String ∨ v.Kind = .Map ∨ v.Kind = .Slice ∨ v.Kind = .Array
          then " length must be " else " must be ") ++ phrase ++ " " ++ c) := by
  have hmain : ErrorValidation.Error ⟨f, v, k, c⟩
      = .ok (f ++ (if v.Kind = .String ∨ v.Kind = .Map ∨ v.Kind = .Slice ∨ v.Kind = .Array
          then " length must be " else " must be ") ++ phrase ++ " to " ++ c) := by
    simp only [List.mem_cons, Prod.mk.injEq, List.mem_singleton, List.not_mem_nil, or_false] at hk
    rcases hk with ⟨rfl, rfl⟩ | ⟨rfl, rfl⟩ | ⟨rfl, rfl⟩ | ⟨rfl, rfl⟩ | ⟨rfl, rfl⟩ | ⟨rfl, rfl⟩ <;>
      (rw [error_comparison_branch _ _ _ _ (by simp)]
       by_cases h : v.Kind = .String ∨ v.Kind = .Map ∨ v.Kind = .Slice ∨ v.Kind = .Array <;>
         simp only [h, if_true, if_false] <;> simp [mapIndex, errMsgMap])
  refine ⟨hmain, ?_⟩
  rw [hmain]
  intro h
  have hd := congrArg String.data (Except.ok.inj h)
  simp only [String.data_append, List.append_assoc, List.append_cancel_left_eq] at hd
  have hl := congrArg List.length hd
  simp only [List.length_append, List.length_cons, List.length_nil] at hl
  omega

/-- C2 amended, at kind Gte, field Age, constraint 18 and the int 5. -/
theorem error_comparison_exact_witness :
    ErrorValidation.Error ⟨"Age", .of ⟨.Int, "int", by decide⟩ "5", .ValidatorGte, "18"⟩
      = .ok "Age must be greater than or equal to 18" :=
  (error_comparison_exact .ValidatorGte "greater than or equal" "Age" "18"
    (.of ⟨.Int, "int", by decide⟩ "5") (by simp)).1

/-- C3: for kind Empty or Nil, paired with its lowercase name (empty, nil), any
field name `f`, observed value `v` and constraint `c`: `Error` returns
`f ++ " is required"` when `c` is exactly `false`, and
`f ++ " must be " ++ name` for every other constraint. -/
theorem error_empty_nil_wording (k : ValidatorType) (name f c : String) (v : Value)
    (hk : (k, name) ∈ [(ValidatorType.ValidatorEmpty, "empty"), (.ValidatorNil, "nil")]) :
    (c = "false" → ErrorValidation.Error ⟨f, v, k, c⟩ = .ok (f ++ " is required")) ∧
    (c ≠ "false" → ErrorValidation.Error ⟨f, v, k, c⟩ = .ok (f ++ " must be " ++ name)) := by
  simp only [List.mem_cons, Prod.mk.injEq, List.mem_singleton, List.not_mem_nil, or_false] at hk
  rcases hk with ⟨rfl, rfl⟩ | ⟨rfl, rfl⟩ <;>
    (constructor <;> intro h <;>
      simp [ErrorValidation.Error, h, sprintf_required, sprintf_must_kind, ValidatorType.format])

/-- C3, at kind Empty and field Email: the constraint `false` gives
`Email is required`; the constraints `true`, `False` and the empty string give
`Email must be empty`; and kind Nil with constraint `true` gives
`Email must be nil`. -/
theorem error_empty_nil_wording_witness :
    ErrorValidation.Error ⟨"Email", .zero, .ValidatorEmpty, "false"⟩ = .ok "Email is required" ∧
    ErrorValidation.Error ⟨"Email", .zero, .ValidatorEmpty, "true"⟩ = .ok "Email must be empty" ∧
    ErrorValidation.Error ⟨"Email", .zero, .ValidatorEmpty, "False"⟩ = .ok "Email must be empty" ∧
    ErrorValidation.Error ⟨"Email", .zero, .ValidatorEmpty, ""⟩ = .ok "Email must be empty" ∧
    ErrorValidation.Error ⟨"Email", .zero, .ValidatorNil, "true"⟩ = .ok "Email must be nil" :=
  ⟨(error_empty_nil_wording .ValidatorEmpty "empty" "Email" "false" .zero (by simp)).1 rfl,
   (error_empty_nil_wording .ValidatorEmpty "empty" "Email" "true" .zero (by simp)).2 (by decide),
   (error_empty_nil_wording .ValidatorEmpty "empty" "Email" "False" .zero (by simp)).2 (by decide),
   (error_empty_nil_wording .ValidatorEmpty "empty" "Email" "" .zero (by simp)).2 (by decide),
   (error_empty_nil_wording .ValidatorNil "nil" "Email" "true" .zero (by simp)).2 (by decide)⟩

/-- C4: for kind OneOf, any field name `f`, observed value `v` and constraint
`c`, `Error` returns
`f ++ " " ++ render v ++ " is not an allowed value. Must be one of " ++ c`,
where `render v` is the text `%v` prints for `v`; the string `archived` with
constraint `[active inactive]` and field Status gives
`Status archived is not an allowed value. Must be one of [active inactive]`. -/
theorem error_one_of_wording :
    (∀ (f c : String) (v : Value),
      ErrorValidation.Error ⟨f, v, .ValidatorOneOf, c⟩
        = .ok (f ++ " " ++ v.format ++ " is not an allowed value. Must be one of " ++ c)) ∧
    ErrorValidation.Error
        ⟨"Status", .of ⟨.String, "string", by decide⟩ "archived", .ValidatorOneOf,
          "[active inactive]"⟩
      = .ok "Status archived is not an allowed value. Must be one of [active inactive]" := by
  have h : ∀ (f c : String) (v : Value),
      ErrorValidation.Error ⟨f, v, .ValidatorOneOf, c⟩
        = .ok (f ++ " " ++ v.format ++ " is not an allowed value. Must be one of " ++ c) := by
    intro f c v
    simp [ErrorValidation.Error, sprintf_one_of]
  exact ⟨h, h _ _ _⟩

/-- C5: for kind Format, any field name `f` and constraint `c`, and whatever
the observed value `v`, `Error` returns `f ++ " must be in " ++ c ++ " format"`. -/
theorem error_format_wording (f c : String) (v : Value) :
    ErrorValidation.Error ⟨f, v, .ValidatorFormat, c⟩
      = .ok (f ++ " must be in " ++ c ++ " format") := by
  simp [ErrorValidation.Error, sprintf_format]

/-! ## The wording of `ErrorSyntax.Error` -/

/-- C6: for every `ErrorSyntax`, `Error` returns the field-scoped sentence
`Syntax error when validating field "<field>", expression "<expression>" near
"<near>": <comment>` when the field name is not empty, and the value-scoped
sentence `Syntax error when validating value, expression "<expression>" near
"<near>": <comment>` when it is empty. -/
theorem errorSyntax_wording (field expression near comment : String) :
    (field ≠ "" →
      ErrorSyntax.Error ⟨field, expression, near, comment⟩
        = "Syntax error when validating field \"" ++ field ++ "\", expression \""
            ++ expression ++ "\" near \"" ++ near ++ "\": " ++ comment) ∧
    (field = "" →
      ErrorSyntax.Error ⟨field, expression, near, comment⟩
        = "Syntax error when validating value, expression \""
            ++ expression ++ "\" near \"" ++ near ++ "\": " ++ comment) := by
  constructor
  · intro h
    have hpos : len field > 0 := (len_pos_iff field).2 h
    simp [ErrorSyntax.Error, hpos, sprintf_syntax_field]
  · intro h
    have hzero : ¬ len field > 0 := fun hp => (len_pos_iff field).1 hp h
    simp only [ErrorSyntax.Error, hzero, if_false, sprintf_syntax_value]

/-- C6, at the input the claim names (expression `age >> 5`, near `>>`, comment
`unexpected operator`, field Rule1), and at the same error with no field
name. -/
theorem errorSyntax_wording_witness :
    ErrorSyntax.Error ⟨"Rule1", "age >> 5", ">>", "unexpected operator"⟩
      = "Syntax error when validating field \"Rule1\", expression \"age >> 5\" near \">>\": unexpected operator" ∧
    ErrorSyntax.Error ⟨"", "age >> 5", ">>", "unexpected operator"⟩
      = "Syntax error when validating value, expression \"age >> 5\" near \">>\": unexpected operator" :=
  ⟨(errorSyntax_wording "Rule1" "age >> 5" ">>" "unexpected operator").1 (by decide),
   (errorSyntax_wording "" "age >> 5" ">>" "unexpected operator").2 rfl⟩

/-! ## Binding a field name -/

/-- C7: for every `ErrorValidation` and every `ErrorSyntax` `e`, every string
`f` and every store, `setFieldName e f` returns an error of the same variant
whose `FieldName` is `f` and whose other fields are those of `e`, so that its
`Error` is the `Error` of `e` constructed with field name `f`. -/
theorem setFieldName_replaces_only_fieldName (f : String) (st : Store) :
    (∀ e : ErrorValidation, ∃ r st1,
      setFieldName (.validation e) f st = .ok (.validation r, st1) ∧
      r.FieldName = f ∧ r.fieldValue = e.fieldValue ∧ r.validatorType = e.validatorType ∧
      r.validatorValue = e.validatorValue ∧
      r.Error = ErrorValidation.Error ⟨f, e.fieldValue, e.validatorType, e.validatorValue⟩ ∧
      ErrorField.Error (.validation r)
        = ErrorField.Error (.validation ⟨f, e.fieldValue, e.validatorType, e.validatorValue⟩)) ∧
    (∀ e : ErrorSyntax, ∃ r st1,
      setFieldName (.syntaxErr e) f st = .ok (.syntaxErr r, st1) ∧
      r.FieldName = f ∧ r.expression = e.expression ∧ r.near = e.near ∧
      r.comment = e.comment ∧
      r.Error = ErrorSyntax.Error ⟨f, e.expression, e.near, e.comment⟩ ∧
      ErrorField.Error (.syntaxErr r)
        = ErrorField.Error (.syntaxErr ⟨f, e.expression, e.near, e.comment⟩)) := by
  constructor
  · intro e
    exact ⟨_, _, setFieldName_validation e f st, rfl, rfl, rfl, rfl, rfl, rfl⟩
  · intro e
    exact ⟨_, _, setFieldName_syntaxErr e f st, rfl, rfl, rfl, rfl, rfl, rfl⟩

/-- C8: for every `ErrorValidation` or `ErrorSyntax` `e`, all strings `a` and
`b` and every store, binding `a` and then `b` returns the error that binding
`b` directly returns, which is `e` constructed with field name `b`. -/
theorem setFieldName_last_wins (a b : String) (st : Store) :
    (∀ e : ErrorValidation, ∃ r1 st1 r2 st2 st3,
      setFieldName (.validation e) a st = .ok (r1, st1) ∧
      setFieldName r1 b st1 = .ok (r2, st2) ∧
      setFieldName (.validation e) b st = .ok (r2, st3) ∧
      r2 = .validation ⟨b, e.fieldValue, e.validatorType, e.validatorValue⟩) ∧
    (∀ e : ErrorSyntax, ∃ r1 st1 r2 st2 st3,
      setFieldName (.syntaxErr e) a st = .ok (r1, st1) ∧
      setFieldName r1 b st1 = .ok (r2, st2) ∧
      setFieldName (.syntaxErr e) b st = .ok (r2, st3) ∧
      r2 = .syntaxErr ⟨b, e.expression, e.near, e.comment⟩) := by
  constructor
  · intro e
    exact ⟨_, _, _, _, _, setFieldName_validation e a st, setFieldName_validation _ b _,
      setFieldName_validation e b st, rfl⟩
  · intro e
    exact ⟨_, _, _, _, _, setFieldName_syntaxErr e a st, setFieldName_syntaxErr _ b _,
      setFieldName_syntaxErr e b st, rfl⟩

/-- C9: for every `ErrorValidation` or `ErrorSyntax` `e`, every string `f`
and every store, the call `setFieldName e f` returns an error whose `FieldName`
is `f`, and every variable that existed before the call holds after it what it
held before: the write goes to a variable of the call, never to the original. -/
theorem setFieldName_leaves_original (f : String) (st : Store) :
    (∀ e : ErrorValidation, ∃ r st1,
      setFieldName (.validation e) f st = .ok (r, st1) ∧ r.FieldName = f ∧
      ∀ addr, addr < st.length → st1[addr]? = st[addr]?) ∧
    (∀ e : ErrorSyntax, ∃ r st1,
      setFieldName (.syntaxErr e) f st = .ok (r, st1) ∧ r.FieldName = f ∧
      ∀ addr, addr < st.length → st1[addr]? = st[addr]?) := by
  constructor
  · intro e
    refine ⟨_, _, setFieldName_validation e f st, rfl, ?_⟩
    intro addr h
    exact List.getElem?_append_left h
  · intro e
    refine ⟨_, _, setFieldName_syntaxErr e f st, rfl, ?_⟩
    intro addr h
    exact List.getElem?_append_left h

/-- C9, at the input the claim names: an `ErrorValidation` with empty field
name, held in the variable at address 0, is bound to `User.Age`; the result
has `FieldName` `User.Age` and the variable still holds the original, whose
`FieldName` is the empty string. -/
theorem setFieldName_leaves_original_witness :
    ∃ r st1,
      setFieldName (.validation ⟨"", .of ⟨.Int, "int", by decide⟩ "5", .ValidatorGte, "18"⟩)
          "User.Age"
          [Cell.validation ⟨"", .of ⟨.Int, "int", by decide⟩ "5", .ValidatorGte, "18"⟩]
        = .ok (r, st1) ∧
      r.FieldName = "User.Age" ∧
      st1[0]?
        = some (Cell.validation ⟨"", .of ⟨.Int, "int", by decide⟩ "5", .ValidatorGte, "18"⟩) ∧
      ErrorValidation.FieldName ⟨"", .of ⟨.Int, "int", by decide⟩ "5", .ValidatorGte, "18"⟩
        = "" :=
  match (setFieldName_leaves_original "User.Age"
      [Cell.validation ⟨"", .of ⟨.Int, "int", by decide⟩ "5", .ValidatorGte, "18"⟩]).1
      ⟨"", .of ⟨.Int, "int", by decide⟩ "5", .ValidatorGte, "18"⟩ with
  | ⟨r, st1, hcall, hname, hframe⟩ =>
    ⟨r, st1, hcall, hname, (hframe 0 (by decide)).trans rfl, rfl⟩

/-- C10 fails on the code: an `ErrorValidation` of a kind outside the ten known
ones that holds the zero `reflect.Value` makes `Error` panic in
`reflect.Value.Type`; so does the zero value of the struct, and so does every
field name, unknown kind and constraint with the zero `reflect.Value`. -/
theorem error_fallback_panics_on_zero_value :
    ErrorValidation.Error ⟨"", .zero, .other "", ""⟩
      = .error "reflect: call of reflect.Value.Type on zero Value" ∧
    ErrorValidation.Error ⟨"Age", .zero, .other "custom", "1"⟩
      = .error "reflect: call of reflect.Value.Type on zero Value" ∧
    ∀ (f name c : String),
      ErrorValidation.Error ⟨f, .zero, .other name, c⟩
        = .error "reflect: call of reflect.Value.Type on zero Value" := by
  refine ⟨rfl, rfl, ?_⟩
  intro f name c
  by_cases h : len f > 0 <;> simp [ErrorValidation.Error, Value.Type, h]

/-! ## The fallback branch and the binder on other implementations -/

/-- The two format strings of the fallback branch, evaluated on arbitrary
operands. -/
theorem sprintf_fallback_field (a b c : String) :
    Sprintf "Validation error in field \"%v\" of type \"%v\" using validator \"%v\"" [a, b, c]
      = "Validation error in field \"" ++ a ++ "\" of type \"" ++ b
          ++ "\" using validator \"" ++ c ++ "\"" := by
  apply String.ext
  simp [Sprintf, sprintfAux, String.data_append]

theorem sprintf_fallback_value (b c : String) :
    Sprintf "Validation error in value of type \"%v\" using validator \"%v\"" [b, c]
      = "Validation error in value of type \"" ++ b ++ "\" using validator \"" ++ c ++ "\"" := by
  apply String.ext
  simp [Sprintf, sprintfAux, String.data_append]

/-- A kind outside the ten known ones is an `other` kind. -/
theorem unknown_kind_is_other (k : ValidatorType)
    (hk : k ∉ [ValidatorType.ValidatorEq, .ValidatorNe, .ValidatorGte, .ValidatorGt,
      .ValidatorLt, .ValidatorLte, .ValidatorEmpty, .ValidatorNil, .ValidatorFormat,
      .ValidatorOneOf]) :
    ∃ name, k = .other name := by
  cases k <;> simp at hk
  exact ⟨_, rfl⟩

/-- The empty string is a left unit of string concatenation. -/
theorem empty_append (s : String) : "" ++ s = s := by
  apply String.ext
  simp [String.data_append]

/-- C11: for a validator kind `k` that is none of the ten known kinds, any
constraint and an observed value of type `t`: when the field name `f` is not
empty, `Error` returns `Validation error in field "<f>" of type "<name of t>"
using validator "<k>"`; when it is empty, `Error` returns `Validation error in
value of type "<name of t>" using validator "<k>"`. -/
theorem error_fallback_wording (k : ValidatorType) (f c text : String) (t : RType)
    (hk : k ∉ [ValidatorType.ValidatorEq, .ValidatorNe, .ValidatorGte, .ValidatorGt,
      .ValidatorLt, .ValidatorLte, .ValidatorEmpty, .ValidatorNil, .ValidatorFormat,
      .ValidatorOneOf]) :
    (f ≠ "" →
      ErrorValidation.Error ⟨f, .of t text, k, c⟩
        = .ok ("Validation error in field \"" ++ f ++ "\" of type \"" ++ t.format
            ++ "\" using validator \"" ++ k.format ++ "\"")) ∧
    (f = "" →
      ErrorValidation.Error ⟨f, .of t text, k, c⟩
        = .ok ("Validation error in value of type \"" ++ t.format
            ++ "\" using validator \"" ++ k.format ++ "\"")) := by
  obtain ⟨name, rfl⟩ := unknown_kind_is_other k hk
  constructor
  · intro h
    have hpos : len f > 0 := (len_pos_iff f).2 h
    simp [ErrorValidation.Error, Value.Type, hpos, sprintf_fallback_field]
  · intro h
    have hzero : ¬ len f > 0 := fun hp => (len_pos_iff f).1 hp h
    simp only [ErrorValidation.Error, Value.Type, hzero, if_false, sprintf_fallback_value]

/-- C11, at the kind `custom` on the int 5: with field Age, and with no field
name. -/
theorem error_fallback_wording_witness :
    ErrorValidation.Error ⟨"Age", .of ⟨.Int, "int", by decide⟩ "5", .other "custom", "1"⟩
      = .ok "Validation error in field \"Age\" of type \"int\" using validator \"custom\"" ∧
    ErrorValidation.Error ⟨"", .of ⟨.Int, "int", by decide⟩ "5", .other "custom", "1"⟩
      = .ok "Validation error in value of type \"int\" using validator \"custom\"" :=
  ⟨(error_fallback_wording (.other "custom") "Age" "1" "5" ⟨.Int, "int", by decide⟩
      (by decide)).1 (by decide),
   (error_fallback_wording (.other "custom") "" "1" "5" ⟨.Int, "int", by decide⟩
      (by decide)).2 rfl⟩

/-- C12: for every implementation of `ErrorField` other than `ErrorValidation`
and `ErrorSyntax`, every string `f` and every store, `setFieldName` returns
the error it was given, with the same `FieldName` and the same `Error`, and
writes nothing. -/
theorem setFieldName_other_unchanged (o : OtherError) (f : String) (st : Store) :
    ∃ r st1, setFieldName (.other o) f st = .ok (r, st1) ∧
      r = .other o ∧ st1 = st ∧
      r.FieldName = ErrorField.FieldName (.other o) ∧
      r.Error = ErrorField.Error (.other o) :=
  ⟨_, _, rfl, rfl, rfl, rfl, rfl⟩

/-! ## The word `length` and the empty field name -/

/-- C13: for a validator kind among Eq, Ne, Gte, Gt, Lt, Lte with its phrase,
any field name `f` and constraint `c`, an observed value `vc` of kind String,
Map, Slice or Array and an observed value `vs` of any other kind: the message
for `vs` is `f ++ " " ++ rest` and the message for `vc` is
`f ++ " " ++ "length " ++ rest`, with the same `rest`; and cutting the seven
characters of `length ` out of the message for `vc`, right after `f` and the
space, gives the message for `vs`. -/
theorem error_length_word_only_difference (k : ValidatorType) (phrase f c : String)
    (vc vs : Value)
    (hk : (k, phrase) ∈ [(ValidatorType.ValidatorEq, "equal"), (.ValidatorNe, "not equal"),
      (.ValidatorGte, "greater than or equal"), (.ValidatorGt, "greater than"),
      (.ValidatorLt, "less than"), (.ValidatorLte, "less than or equal")])
    (hc : vc.Kind = .String ∨ vc.Kind = .Map ∨ vc.Kind = .Slice ∨ vc.Kind = .Array)
    (hs : ¬ (vs.Kind = .String ∨ vs.Kind = .Map ∨ vs.Kind = .Slice ∨ vs.Kind = .Array)) :
    ∃ rest msgC msgS,
      ErrorValidation.Error ⟨f, vc, k, c⟩ = .ok msgC ∧
      ErrorValidation.Error ⟨f, vs, k, c⟩ = .ok msgS ∧
      rest = "must be " ++ phrase ++ " to " ++ c ∧
      msgS = f ++ " " ++ rest ∧
      msgC = f ++ " " ++ "length " ++ rest ∧
      String.mk (msgC.data.take (f.length + 1)
        ++ msgC.data.drop (f.length + 1 + "length ".length)) = msgS := by
  have hphrase : mapIndex errMsgMap k = phrase := by
    simp only [List.mem_cons, Prod.mk.injEq, List.mem_singleton, List.not_mem_nil, or_false] at hk
    rcases hk with ⟨rfl, rfl⟩ | ⟨rfl, rfl⟩ | ⟨rfl, rfl⟩ | ⟨rfl, rfl⟩ | ⟨rfl, rfl⟩ | ⟨rfl, rfl⟩ <;>
      simp [mapIndex, errMsgMap]
  have hkind : k = .ValidatorEq ∨ k = .ValidatorNe ∨ k = .ValidatorGte ∨ k = .ValidatorGt
      ∨ k = .ValidatorLt ∨ k = .ValidatorLte := by
    simp only [List.mem_cons, Prod.mk.injEq, List.mem_singleton, List.not_mem_nil, or_false] at hk
    rcases hk with ⟨rfl, _⟩ | ⟨rfl, _⟩ | ⟨rfl, _⟩ | ⟨rfl, _⟩ | ⟨rfl, _⟩ | ⟨rfl, _⟩ <;> simp
  refine ⟨"must be " ++ phrase ++ " to " ++ c, f ++ " " ++ "length " ++
    ("must be " ++ phrase ++ " to " ++ c), f ++ " " ++ ("must be " ++ phrase ++ " to " ++ c),
    ?_, ?_, rfl, rfl, rfl, ?_⟩
  · rw [error_comparison_branch _ _ _ _ hkind, if_pos hc, hphrase]
    congr 1
    apply String.ext
    simp [String.data_append]
  · rw [error_comparison_branch _ _ _ _ hkind, if_neg hs, hphrase]
    congr 1
    apply String.ext
    simp [String.data_append]
  · apply String.ext
    have h1 : (f.data ++ [' ']).length = f.length + 1 := by
      show _ = f.data.length + 1
      simp only [List.length_append, List.length_singleton]
    have h2 : (f.data ++ [' '] ++ "length ".data).length = f.length + 1 + "length ".length := by
      show _ = f.data.length + 1 + "length ".data.length
      simp only [List.length_append, List.length_singleton]
    have hsplit : (f ++ " " ++ "length " ++ ("must be " ++ phrase ++ " to " ++ c)).data
        = (f.data ++ [' ']) ++ ("length ".data ++ ("must be " ++ phrase ++ " to " ++ c).data) := by
      simp [String.data_append]
    have hsplit2 : (f ++ " " ++ "length " ++ ("must be " ++ phrase ++ " to " ++ c)).data
        = (f.data ++ [' '] ++ "length ".data) ++ ("must be " ++ phrase ++ " to " ++ c).data := by
      simp [String.data_append]
    have htake := @List.take_left' Char (f.data ++ [' '])
      ("length ".data ++ ("must be " ++ phrase ++ " to " ++ c).data) (f.length + 1) h1
    have hdrop := @List.drop_left' Char (f.data ++ [' '] ++ "length ".data)
      ("must be " ++ phrase ++ " to " ++ c).data (f.length + 1 + "length ".length) h2
    show List.take (f.length + 1) _ ++ List.drop (f.length + 1 + "length ".length) _ = _
    rw [← hsplit] at htake
    rw [← hsplit2] at hdrop
    rw [htake, hdrop]
    simp [String.data_append]

/-- C13, at kind Gte, field Age and constraint 18, on the string x and the
int 5. -/
theorem error_length_word_only_difference_witness :
    ∃ rest msgC msgS,
      ErrorValidation.Error ⟨"Age", .of ⟨.String, "string", by decide⟩ "x", .ValidatorGte, "18"⟩
        = .ok msgC ∧
      ErrorValidation.Error ⟨"Age", .of ⟨.Int, "int", by decide⟩ "5", .ValidatorGte, "18"⟩
        = .ok msgS ∧
      rest = "must be " ++ "greater than or equal" ++ " to " ++ "18" ∧
      msgS = "Age" ++ " " ++ rest ∧
      msgC = "Age" ++ " " ++ "length " ++ rest ∧
      String.mk (msgC.data.take ("Age".length + 1)
        ++ msgC.data.drop ("Age".length + 1 + "length ".length)) = msgS :=
  error_length_word_only_difference .ValidatorGte "greater than or equal" "Age" "18"
    (.of ⟨.String, "string", by decide⟩ "x") (.of ⟨.Int, "int", by decide⟩ "5")
    (by simp) (by decide) (by decide)

/-- C14 as stated fails: for kind Gte and constraint 18 with an empty field
name, `Error` on the int 5 returns ` must be greater than or equal to 18` and on
the string x ` length must be greater than or equal to 18`, each with a leading
space; neither message begins directly with `must be` or `length must be`. -/
theorem error_empty_fieldName_counterexample :
    ErrorValidation.Error ⟨"", .of ⟨.Int, "int", by decide⟩ "5", .ValidatorGte, "18"⟩
        = .ok " must be greater than or equal to 18" ∧
    ErrorValidation.Error ⟨"", .of ⟨.Int, "int", by decide⟩ "5", .ValidatorGte, "18"⟩
        ≠ .ok "must be greater than or equal to 18" ∧
    ErrorValidation.Error ⟨"", .of ⟨.String, "string", by decide⟩ "x", .ValidatorGte, "18"⟩
        = .ok " length must be greater than or equal to 18" ∧
    ErrorValidation.Error ⟨"", .of ⟨.String, "string", by decide⟩ "x", .ValidatorGte, "18"⟩
        ≠ .ok "length must be greater than or equal to 18" := by
  refine ⟨?_, ?_, ?_, ?_⟩ <;>
    (rw [error_comparison_branch _ _ _ _ (by simp)]
     simp [Value.Kind, mapIndex, errMsgMap])

/-- C14, amended: for a validator kind among Eq, Ne, Gte, Gt, Lt, Lte with its
phrase, any constraint `c` and observed value `v`, `Error` with an empty field
name returns the message `m` that is ` length must be <phrase> to <c>` for a
String, Map, Slice or Array and ` must be <phrase> to <c>` otherwise; `m`
begins with the space that follows the field name, and for every field name
`f` the field-scoped message is `f ++ m`. -/
theorem error_empty_fieldName_wording (k : ValidatorType) (phrase c : String) (v : Value)
    (hk : (k, phrase) ∈ [(ValidatorType.ValidatorEq, "equal"), (.ValidatorNe, "not equal"),
      (.ValidatorGte, "greater than or equal"), (.ValidatorGt, "greater than"),
      (.ValidatorLt, "less than"), (.ValidatorLte, "less than or equal")]) :
    ∃ m, ErrorValidation.Error ⟨"", v, k, c⟩ = .ok m ∧
      m = (if v.Kind = .String ∨ v.Kind = .Map ∨ v.Kind = .Slice ∨ v.Kind = .Array
          then " length must be " else " must be ") ++ phrase ++ " to " ++ c ∧
      m.data.head? = some ' ' ∧
      ∀ f : String, ErrorValidation.Error ⟨f, v, k, c⟩ = .ok (f ++ m) := by
  have hphrase : mapIndex errMsgMap k = phrase := by
    simp only [List.mem_cons, Prod.mk.injEq, List.mem_singleton, List.not_mem_nil, or_false] at hk
    rcases hk with ⟨rfl, rfl⟩ | ⟨rfl, rfl⟩ | ⟨rfl, rfl⟩ | ⟨rfl, rfl⟩ | ⟨rfl, rfl⟩ | ⟨rfl, rfl⟩ <;>
      simp [mapIndex, errMsgMap]
  have hkind : k = .ValidatorEq ∨ k = .ValidatorNe ∨ k = .ValidatorGte ∨ k = .ValidatorGt
      ∨ k = .ValidatorLt ∨ k = .ValidatorLte := by
    simp only [List.mem_cons, Prod.mk.injEq, List.mem_singleton, List.not_mem_nil, or_false] at hk
    rcases hk with ⟨rfl, _⟩ | ⟨rfl, _⟩ | ⟨rfl, _⟩ | ⟨rfl, _⟩ | ⟨rfl, _⟩ | ⟨rfl, _⟩ <;> simp
  have hall : ∀ f : String, ErrorValidation.Error ⟨f, v, k, c⟩
      = .ok (f ++ ((if v.Kind = .String ∨ v.Kind = .Map ∨ v.Kind = .Slice ∨ v.Kind = .Array
          then " length must be " else " must be ") ++ phrase ++ " to " ++ c)) := by
    intro f
    rw [error_comparison_branch _ _ _ _ hkind, hphrase]
    by_cases h : v.Kind = .String ∨ v.Kind = .Map ∨ v.Kind = .Slice ∨ v.Kind = .Array
    · simp only [if_pos h]
      congr 1
      apply String.ext
      simp [String.data_append]
    · simp only [if_neg h]
      congr 1
      apply String.ext
      simp [String.data_append]
  refine ⟨_, ?_, rfl, ?_, hall⟩
  · rw [hall "", empty_append]
  · by_cases h : v.Kind = .String ∨ v.Kind = .Map ∨ v.Kind = .Slice ∨ v.Kind = .Array
    · simp only [if_pos h, String.data_append]
      rfl
    · simp only [if_neg h, String.data_append]
      rfl

/-- C14 amended, at kind Gte and constraint 18 on the int 5. -/
theorem error_empty_fieldName_wording_witness :
    ∃ m, ErrorValidation.Error ⟨"", .of ⟨.Int, "int", by decide⟩ "5", .ValidatorGte, "18"⟩
        = .ok m ∧
      m = (if Value.Kind (.of ⟨.Int, "int", by decide⟩ "5") = .String
            ∨ Value.Kind (.of ⟨.Int, "int", by decide⟩ "5") = .Map
            ∨ Value.Kind (.of ⟨.Int, "int", by decide⟩ "5") = .Slice
            ∨ Value.Kind (.of ⟨.Int, "int", by decide⟩ "5") = .Array
          then " length must be " else " must be ") ++ "greater than or equal" ++ " to " ++ "18" ∧
      m.data.head? = some ' ' ∧
      ∀ f : String,
        ErrorValidation.Error ⟨f, .of ⟨.Int, "int", by decide⟩ "5", .ValidatorGte, "18"⟩
          = .ok (f ++ m) :=
  error_empty_fieldName_wording .ValidatorGte "greater than or equal" "18"
    (.of ⟨.Int, "int", by decide⟩ "5") (by simp)

/-! ## Totality -/

/-- On a kind among the ten known ones `Error` returns a string, whatever the
observed value. -/
theorem error_known_kind_ok (k : ValidatorType) (f c : String) (v : Value)
    (hk : k ∈ [ValidatorType.ValidatorEq, .ValidatorNe, .ValidatorGte, .ValidatorGt,
      .ValidatorLt, .ValidatorLte, .ValidatorEmpty, .ValidatorNil, .ValidatorFormat,
      .ValidatorOneOf]) :
    ∃ s, ErrorValidation.Error ⟨f, v, k, c⟩ = .ok s := by
  simp only [List.mem_cons, List.mem_singleton, List.not_mem_nil, or_false] at hk
  rcases hk with rfl | rfl | rfl | rfl | rfl | rfl | rfl | rfl | rfl | rfl
  · exact ⟨_, error_comparison_branch _ _ _ _ (by simp)⟩
  · exact ⟨_, error_comparison_branch _ _ _ _ (by simp)⟩
  · exact ⟨_, error_comparison_branch _ _ _ _ (by simp)⟩
  · exact ⟨_, error_comparison_branch _ _ _ _ (by simp)⟩
  · exact ⟨_, error_comparison_branch _ _ _ _ (by simp)⟩
  · exact ⟨_, error_comparison_branch _ _ _ _ (by simp)⟩
  · by_cases h : c = "false" <;> simp [ErrorValidation.Error, h]
  · by_cases h : c = "false" <;> simp [ErrorValidation.Error, h]
  · simp [ErrorValidation.Error]
  · simp [ErrorValidation.Error]

/-- On an observed value that holds something `Error` returns a string, whatever
the kind. -/
theorem error_valid_value_ok (k : ValidatorType) (f c text : String) (t : RType) :
    ∃ s, ErrorValidation.Error ⟨f, .of t text, k, c⟩ = .ok s := by
  by_cases hk : k ∈ [ValidatorType.ValidatorEq, .ValidatorNe, .ValidatorGte, .ValidatorGt,
      .ValidatorLt, .ValidatorLte, .ValidatorEmpty, .ValidatorNil, .ValidatorFormat,
      .ValidatorOneOf]
  · exact error_known_kind_ok k f c _ hk
  · obtain ⟨name, rfl⟩ := unknown_kind_is_other k hk
    by_cases h : len f > 0 <;> simp [ErrorValidation.Error, Value.Type, h]

/-- On a kind outside the ten and the zero `Value`, `Error` panics, whatever the
field name. -/
theorem error_other_zero_panics (f name c : String) :
    ErrorValidation.Error ⟨f, .zero, .other name, c⟩
      = .error "reflect: call of reflect.Value.Type on zero Value" := by
  by_cases h : len f > 0 <;> simp [ErrorValidation.Error, Value.Type, h]

/-- Whether `Error` returns a string does not depend on the field name. -/
theorem error_ok_any_fieldName (e : ErrorValidation) (f : String)
    (h : ∃ s, e.Error = .ok s) :
    ∃ s, ErrorValidation.Error ⟨f, e.fieldValue, e.validatorType, e.validatorValue⟩ = .ok s := by
  obtain ⟨f0, v, k, c⟩ := e
  by_cases hk : k ∈ [ValidatorType.ValidatorEq, .ValidatorNe, .ValidatorGte, .ValidatorGt,
      .ValidatorLt, .ValidatorLte, .ValidatorEmpty, .ValidatorNil, .ValidatorFormat,
      .ValidatorOneOf]
  · exact error_known_kind_ok k f c v hk
  · obtain ⟨name, rfl⟩ := unknown_kind_is_other k hk
    cases v with
    | zero =>
      obtain ⟨s, hs⟩ := h
      rw [error_other_zero_panics] at hs
      cases hs
    | of t text => exact error_valid_value_ok _ f c text t

/-- C15: `setFieldName` is total.  For every `ErrorField` `err`, every string
`f` and every store the call returns a value; when `Error` was defined on `err`
it is defined on the result (`FieldName` is defined on every error); and in
the branch of an `ErrorValidation` or of an `ErrorSyntax` the assertion to the
concrete struct, the assertion of the pointer to the setter interface
`errorField` and the call through that interface all succeed. -/
theorem setFieldName_total (err : ErrorField) (f : String) (st : Store) :
    (∃ r st1, setFieldName err f st = .ok (r, st1) ∧
      ((∃ s, err.Error = .ok s) → ∃ s, r.Error = .ok s)) ∧
    (∀ e : ErrorValidation, err = .validation e →
      err.assertErrorValidation = .ok e ∧
      (Dyn.ptrErrorValidation st.length).assertErrorField = .ok (.ptrErrorValidation st.length) ∧
      ∃ st2, errorField.setFieldName (.ptrErrorValidation st.length) f
        (st ++ [Cell.validation e]) = .ok st2) ∧
    (∀ e : ErrorSyntax, err = .syntaxErr e →
      err.assertErrorSyntax = .ok e ∧
      (Dyn.ptrErrorSyntax st.length).assertErrorField = .ok (.ptrErrorSyntax st.length) ∧
      ∃ st2, errorField.setFieldName (.ptrErrorSyntax st.length) f
        (st ++ [Cell.syntaxErr e]) = .ok st2) := by
  refine ⟨?_, ?_, ?_⟩
  · cases err with
    | validation e =>
      refine ⟨_, _, setFieldName_validation e f st, ?_⟩
      intro h
      exact error_ok_any_fieldName e f h
    | syntaxErr e =>
      exact ⟨_, _, setFieldName_syntaxErr e f st, fun _ => ⟨_, rfl⟩⟩
    | other o =>
      exact ⟨_, _, rfl, fun h => h⟩
  · rintro e rfl
    refine ⟨rfl, rfl, ?_⟩
    simp [errorField.setFieldName]
  · rintro e rfl
    refine ⟨rfl, rfl, ?_⟩
    simp [errorField.setFieldName]

/-- C15, at an `ErrorValidation` of kind Gte on the int 5 with no field name,
bound to Age on the empty store: the call returns and `Error` is defined on the
result. -/
theorem setFieldName_total_witness :
    ∃ r st1,
      setFieldName (.validation ⟨"", .of ⟨.Int, "int", by decide⟩ "5", .ValidatorGte, "18"⟩)
        "Age" [] = .ok (r, st1) ∧
      ∃ s, r.Error = .ok s :=
  match (setFieldName_total
      (.validation ⟨"", .of ⟨.Int, "int", by decide⟩ "5", .ValidatorGte, "18"⟩) "Age" []).1 with
  | ⟨r, st1, hcall, hdef⟩ =>
    ⟨r, st1, hcall, hdef ⟨" must be greater than or equal to 18", rfl⟩⟩

/-! ## The choice of the wording -/

/-- C16: for a validator kind among Eq, Ne, Gte, Gt, Lt, Lte with its phrase,
`Error` produces the wording with `length` exactly when the kind of the
observed value is String, Map, Slice or Array, and the wording without it
exactly when the kind is any other one. -/
theorem error_length_wording_iff (k : ValidatorType) (phrase f c : String) (v : Value)
    (hk : (k, phrase) ∈ [(ValidatorType.ValidatorEq, "equal"), (.ValidatorNe, "not equal"),
      (.ValidatorGte, "greater than or equal"), (.ValidatorGt, "greater than"),
      (.ValidatorLt, "less than"), (.ValidatorLte, "less than or equal")]) :
    (ErrorValidation.Error ⟨f, v, k, c⟩ = .ok (f ++ " length must be " ++ phrase ++ " to " ++ c)
      ↔ (v.Kind = .String ∨ v.Kind = .Map ∨ v.Kind = .Slice ∨ v.Kind = .Array)) ∧
    (ErrorValidation.Error ⟨f, v, k, c⟩ = .ok (f ++ " must be " ++ phrase ++ " to " ++ c)
      ↔ ¬ (v.Kind = .String ∨ v.Kind = .Map ∨ v.Kind = .Slice ∨ v.Kind = .Array)) := by
  have hphrase : mapIndex errMsgMap k = phrase := by
    simp only [List.mem_cons, Prod.mk.injEq, List.mem_singleton, List.not_mem_nil, or_false] at hk
    rcases hk with ⟨rfl, rfl⟩ | ⟨rfl, rfl⟩ | ⟨rfl, rfl⟩ | ⟨rfl, rfl⟩ | ⟨rfl, rfl⟩ | ⟨rfl, rfl⟩ <;>
      simp [mapIndex, errMsgMap]
  have hkind : k = .ValidatorEq ∨ k = .ValidatorNe ∨ k = .ValidatorGte ∨ k = .ValidatorGt
      ∨ k = .ValidatorLt ∨ k = .ValidatorLte := by
    simp only [List.mem_cons, Prod.mk.injEq, List.mem_singleton, List.not_mem_nil, or_false] at hk
    rcases hk with ⟨rfl, _⟩ | ⟨rfl, _⟩ | ⟨rfl, _⟩ | ⟨rfl, _⟩ | ⟨rfl, _⟩ | ⟨rfl, _⟩ <;> simp
  have hdiff : f ++ " length must be " ++ phrase ++ " to " ++ c
      ≠ f ++ " must be " ++ phrase ++ " to " ++ c := by
    intro h
    have hd := congrArg String.data h
    simp only [String.data_append, List.append_assoc, List.append_cancel_left_eq] at hd
    have hh := congrArg (fun l => l.get? 1) hd
    revert hh
    show (some 'l' : Option Char) = some 'm' → False
    decide
  rw [error_comparison_branch _ _ _ _ hkind, hphrase]
  by_cases h : v.Kind = .String ∨ v.Kind = .Map ∨ v.Kind = .Slice ∨ v.Kind = .Array
  · rw [if_pos h]
    exact ⟨⟨fun _ => h, fun _ => rfl⟩,
      ⟨fun heq => absurd (Except.ok.inj heq) hdiff, fun hn => absurd h hn⟩⟩
  · rw [if_neg h]
    exact ⟨⟨fun heq => absurd (Except.ok.inj heq).symm hdiff, fun hh => absurd hh h⟩,
      ⟨fun _ => h, fun _ => rfl⟩⟩

/-- C16, at kind Gte, field Age and constraint 18: a pointer to a string, a
struct and the zero `Value` get the wording without `length`. -/
theorem error_length_wording_iff_witness :
    ErrorValidation.Error
        ⟨"Age", .of ⟨.Pointer, "*string", by decide⟩ "0xc000012345", .ValidatorGte, "18"⟩
      = .ok "Age must be greater than or equal to 18" ∧
    ErrorValidation.Error
        ⟨"Age", .of ⟨.Struct, "main.T", by decide⟩ "{}", .ValidatorGte, "18"⟩
      = .ok "Age must be greater than or equal to 18" ∧
    ErrorValidation.Error ⟨"Age", .zero, .ValidatorGte, "18"⟩
      = .ok "Age must be greater than or equal to 18" :=
  ⟨(error_length_wording_iff .ValidatorGte "greater than or equal" "Age" "18"
      (.of ⟨.Pointer, "*string", by decide⟩ "0xc000012345") (by simp)).2.2 (by decide),
   (error_length_wording_iff .ValidatorGte "greater than or equal" "Age" "18"
      (.of ⟨.Struct, "main.T", by decide⟩ "{}") (by simp)).2.2 (by decide),
   (error_length_wording_iff .ValidatorGte "greater than or equal" "Age" "18"
      .zero (by simp)).2.2 (by decide)⟩

/-- C17: for two distinct validator kinds among Eq, Ne, Gte, Gt, Lt, Lte and
the same field name, observed value and constraint, the two messages of `Error`
differ; and each of the six kinds has an entry in the phrase table, so its
phrase is not empty. -/
theorem error_comparison_injective (k1 k2 : ValidatorType) (f c : String) (v : Value)
    (h1 : k1 ∈ [ValidatorType.ValidatorEq, .ValidatorNe, .ValidatorGte, .ValidatorGt,
      .ValidatorLt, .ValidatorLte])
    (h2 : k2 ∈ [ValidatorType.ValidatorEq, .ValidatorNe, .ValidatorGte, .ValidatorGt,
      .ValidatorLt, .ValidatorLte])
    (hne : k1 ≠ k2) :
    ErrorValidation.Error ⟨f, v, k1, c⟩ ≠ ErrorValidation.Error ⟨f, v, k2, c⟩ ∧
    k1 ∈ errMsgMap.map Prod.fst ∧ k2 ∈ errMsgMap.map Prod.fst ∧
    mapIndex errMsgMap k1 ≠ "" ∧ mapIndex errMsgMap k2 ≠ "" := by
  simp only [List.mem_cons, List.mem_singleton, List.not_mem_nil, or_false] at h1 h2
  have hphrase : mapIndex errMsgMap k1 ≠ mapIndex errMsgMap k2 := by
    rcases h1 with rfl | rfl | rfl | rfl | rfl | rfl <;>
      rcases h2 with rfl | rfl | rfl | rfl | rfl | rfl <;>
      first
        | exact absurd rfl hne
        | (simp only [mapIndex, errMsgMap]; decide)
  refine ⟨?_, ?_, ?_, ?_, ?_⟩
  · rw [error_comparison_branch _ _ _ _ h1, error_comparison_branch _ _ _ _ h2]
    intro h
    apply hphrase
    apply String.ext
    have hd := congrArg String.data (Except.ok.inj h)
    by_cases hK : v.Kind = .String ∨ v.Kind = .Map ∨ v.Kind = .Slice ∨ v.Kind = .Array
    · simp only [if_pos hK, String.data_append, List.append_assoc, List.append_cancel_left_eq,
        List.append_cancel_right_eq] at hd
      exact hd
    · simp only [if_neg hK, String.data_append, List.append_assoc, List.append_cancel_left_eq,
        List.append_cancel_right_eq] at hd
      exact hd
  · rcases h1 with rfl | rfl | rfl | rfl | rfl | rfl <;> decide
  · rcases h2 with rfl | rfl | rfl | rfl | rfl | rfl <;> decide
  · rcases h1 with rfl | rfl | rfl | rfl | rfl | rfl <;> (simp only [mapIndex, errMsgMap]; decide)
  · rcases h2 with rfl | rfl | rfl | rfl | rfl | rfl <;> (simp only [mapIndex, errMsgMap]; decide)

/-- C17, at the kinds Gt and Gte, whose phrases share a prefix, with field Age,
constraint 18 and the int 5. -/
theorem error_comparison_injective_witness :
    ErrorValidation.Error ⟨"Age", .of ⟨.Int, "int", by decide⟩ "5", .ValidatorGt, "18"⟩
      ≠ ErrorValidation.Error ⟨"Age", .of ⟨.Int, "int", by decide⟩ "5", .ValidatorGte, "18"⟩ :=
  (error_comparison_injective .ValidatorGt .ValidatorGte "Age" "18"
    (.of ⟨.Int, "int", by decide⟩ "5") (by decide) (by decide) (by decide)).1

/-- C18: for a validator kind among the ten known ones, `Error` returns a
string for every field name, constraint and observed value, the zero `Value`
included.  For Empty, Nil and Format the result does not depend on the observed
value; for OneOf it depends only on the text of the value; for the six
comparison kinds it depends only on the kind of the value, and the zero `Value`
gets the wording without `length`. -/
theorem error_known_kind_total (k : ValidatorType) (f c : String) (v : Value)
    (hk : k ∈ [ValidatorType.ValidatorEq, .ValidatorNe, .ValidatorGte, .ValidatorGt,
      .ValidatorLt, .ValidatorLte, .ValidatorEmpty, .ValidatorNil, .ValidatorFormat,
      .ValidatorOneOf]) :
    (∃ s, ErrorValidation.Error ⟨f, v, k, c⟩ = .ok s) ∧
    (∃ s, ErrorValidation.Error ⟨f, .zero, k, c⟩ = .ok s) ∧
    (k ∈ [ValidatorType.ValidatorEmpty, .ValidatorNil, .ValidatorFormat] →
      ∀ v2 : Value, ErrorValidation.Error ⟨f, v2, k, c⟩ = ErrorValidation.Error ⟨f, v, k, c⟩) ∧
    (k = .ValidatorOneOf →
      ∀ v2 : Value, v2.format = v.format →
        ErrorValidation.Error ⟨f, v2, k, c⟩ = ErrorValidation.Error ⟨f, v, k, c⟩) ∧
    (k ∈ [ValidatorType.ValidatorEq, .ValidatorNe, .ValidatorGte, .ValidatorGt,
        .ValidatorLt, .ValidatorLte] →
      (∀ v2 : Value, v2.Kind = v.Kind →
        ErrorValidation.Error ⟨f, v2, k, c⟩ = ErrorValidation.Error ⟨f, v, k, c⟩) ∧
      ErrorValidation.Error ⟨f, .zero, k, c⟩
        = .ok (f ++ " must be " ++ mapIndex errMsgMap k ++ " to " ++ c)) := by
  refine ⟨error_known_kind_ok k f c v hk, error_known_kind_ok k f c .zero hk, ?_, ?_, ?_⟩
  · intro h v2
    simp only [List.mem_cons, List.mem_singleton, List.not_mem_nil, or_false] at h
    rcases h with rfl | rfl | rfl <;> simp [ErrorValidation.Error]
  · rintro rfl v2 hv
    simp [ErrorValidation.Error, hv]
  · intro h
    simp only [List.mem_cons, List.mem_singleton, List.not_mem_nil, or_false] at h
    constructor
    · intro v2 hv
      rw [error_comparison_branch _ _ _ _ h, error_comparison_branch _ _ _ _ h, hv]
    · rw [error_comparison_branch _ _ _ _ h]
      simp [Value.Kind]

/-- C18, on the zero `Value` with field Age: kind Gte gives the wording without
`length`, kind Format and kind OneOf give their sentence, and kind Empty with
constraint `false` gives `Age is required`. -/
theorem error_known_kind_total_witness :
    ErrorValidation.Error ⟨"Age", .zero, .ValidatorGte, "18"⟩
      = .ok ("Age" ++ " must be " ++ mapIndex errMsgMap .ValidatorGte ++ " to " ++ "18") ∧
    (∃ s, ErrorValidation.Error ⟨"Age", .zero, .ValidatorFormat, "email"⟩ = .ok s) ∧
    (∃ s, ErrorValidation.Error ⟨"Age", .zero, .ValidatorOneOf, "[a b]"⟩ = .ok s) ∧
    (∃ s, ErrorValidation.Error ⟨"Age", .zero, .ValidatorEmpty, "false"⟩ = .ok s) :=
  ⟨((error_known_kind_total .ValidatorGte "Age" "18" .zero (by decide)).2.2.2.2
      (by decide)).2,
   (error_known_kind_total .ValidatorFormat "Age" "email" .zero (by decide)).1,
   (error_known_kind_total .ValidatorOneOf "Age" "[a b]" .zero (by decide)).1,
   (error_known_kind_total .ValidatorEmpty "Age" "false" .zero (by decide)).1⟩

end Validate
